import Mathlib

/-
Verification of the stress-ng orchestrator core (src/stress-ng.c) against its
natural-language specification.  The definitions below are shallow embeddings
of the C functions named in their doc comments; machine integers are modelled
as Nat (with explicit wrapping where the C width matters) and doubles used for
exact accumulation are modelled as Rat.
-/

set_option maxRecDepth 4096

/-- Exit code EXIT_SUCCESS. Modelled from the spec: the exit-code table of §6
(stress-ng.h is not under src/). -/
def EXIT_SUCCESS : Nat := 0

/-- Exit code EXIT_FAILURE (core failure). Modelled from the spec exit-code table. -/
def EXIT_FAILURE : Nat := 1

/-- Exit code EXIT_NOT_SUCCESS (some stressor failed). Modelled from the spec exit-code table. -/
def EXIT_NOT_SUCCESS : Nat := 2

/-- Exit code EXIT_NO_RESOURCE. Modelled from the spec exit-code table. -/
def EXIT_NO_RESOURCE : Nat := 3

/-- Exit code EXIT_NOT_IMPLEMENTED. Modelled from the spec exit-code table. -/
def EXIT_NOT_IMPLEMENTED : Nat := 4

/-- Exit code EXIT_SIGNALED. Modelled from the spec exit-code table. -/
def EXIT_SIGNALED : Nat := 5

/-- Exit code EXIT_BY_SYS_EXIT. Modelled from the spec exit-code table. -/
def EXIT_BY_SYS_EXIT : Nat := 6

/-- Exit code EXIT_METRICS_UNTRUSTWORTHY. Modelled from the spec exit-code table. -/
def EXIT_METRICS_UNTRUSTWORTHY : Nat := 7

/-- POSIX signal number of SIGKILL on Linux. -/
def SIGKILL : Nat := 9

/-- POSIX signal number of SIGALRM on Linux. -/
def SIGALRM : Nat := 14

/-- Success / abort flags threaded through stress_wait_pid
(src/stress-ng.c:986-991): the three success booleans plus the local do_abort. -/
structure WaitFlags where
  success : Bool
  resource_success : Bool
  metrics_success : Bool
  do_abort : Bool
deriving Repr, DecidableEq

/-- Per-stressor status buckets ss->status[] (STRESS_STRESSOR_STATUS_PASSED,
SKIPPED, FAILED, BAD_METRICS) incremented by stress_wait_pid. -/
structure StatusCounts where
  passed : Nat
  skipped : Nat
  failed : Nat
  bad_metrics : Nat
deriving Repr, DecidableEq

/-- Embedding of the switch (wexit_status) in stress_wait_pid
(src/stress-ng.c:1033-1082).  The EXIT_FAILURE case increments FAILED and then
falls through to the default actions (success=false, do_abort=true); the
default case performs only the default actions and touches no bucket. -/
def stress_wait_pid_exit (wexit : Nat) (f : WaitFlags) (c : StatusCounts) :
    WaitFlags × StatusCounts :=
  if wexit = EXIT_SUCCESS then
    (f, { c with passed := c.passed + 1 })
  else if wexit = EXIT_NO_RESOURCE then
    ({ f with resource_success := false, do_abort := true },
     { c with skipped := c.skipped + 1 })
  else if wexit = EXIT_NOT_IMPLEMENTED then
    ({ f with do_abort := true }, { c with skipped := c.skipped + 1 })
  else if wexit = EXIT_SIGNALED then
    ({ f with do_abort := true }, c)
  else if wexit = EXIT_BY_SYS_EXIT then
    ({ f with do_abort := true }, { c with failed := c.failed + 1 })
  else if wexit = EXIT_METRICS_UNTRUSTWORTHY then
    ({ f with metrics_success := false }, { c with bad_metrics := c.bad_metrics + 1 })
  else if wexit = EXIT_FAILURE then
    ({ f with success := false, do_abort := true }, { c with failed := c.failed + 1 })
  else
    ({ f with success := false, do_abort := true }, c)

/-- Embedding of the WIFSIGNALED branch of stress_wait_pid
(src/stress-ng.c:998-1032): how death by a signal updates the success flag.
oomed models stress_process_oomed(pid); wterm models WTERMSIG(status). -/
def stress_wait_pid_signal_death (oomed : Bool) (wterm : Nat) (success : Bool) : Bool :=
  if oomed then success
  else if wterm = SIGKILL then success
  else if wterm ≠ SIGALRM then false
  else success

/-- Embedding of the final exit-code selection at the end of main
(src/stress-ng.c:3733-3739). -/
def stress_main_exit_code (success resource_success metrics_success : Bool) : Nat :=
  if !success then EXIT_NOT_SUCCESS
  else if !resource_success then EXIT_NO_RESOURCE
  else if !metrics_success then EXIT_METRICS_UNTRUSTWORTHY
  else EXIT_SUCCESS

/-- One live stressor worker as seen by stress_kill_stressors: its stats->pid
(0 means reaped/absent) and stats->signalled flag. -/
structure KWorker where
  pid : Nat
  signalled : Bool
deriving Repr, DecidableEq

/-- One stressor node as seen by stress_kill_stressors: ss->ignore.run and the
per-instance stats slots. -/
structure KStressor where
  ignore_run : Bool
  workers : List KWorker
deriving Repr, DecidableEq

/-- Embedding of the per-worker body of the loop in stress_kill_stressors
(src/stress-ng.c:540-548): signal a live, not-yet-signalled worker and mark it
signalled.  Returns the updated slot and the (pid, signal) deliveries made. -/
def stress_kill_worker (signum : Nat) (w : KWorker) : KWorker × List (Nat × Nat) :=
  if w.pid ≠ 0 && !w.signalled then
    ({ w with signalled := true }, [(w.pid, signum)])
  else
    (w, [])

/-- Embedding of the inner instance loop of stress_kill_stressors over one
stressor's stats slots. -/
def stress_kill_workers (signum : Nat) : List KWorker → List KWorker × List (Nat × Nat)
  | [] => ([], [])
  | w :: ws =>
    let r := stress_kill_worker signum w
    let rest := stress_kill_workers signum ws
    (r.1 :: rest.1, r.2 ++ rest.2)

/-- Embedding of the stressor loop of stress_kill_stressors
(src/stress-ng.c:534-549): stressors with ignore.run set are skipped. -/
def stress_kill_list (signum : Nat) : List KStressor → List KStressor × List (Nat × Nat)
  | [] => ([], [])
  | ss :: rest =>
    let tail := stress_kill_list signum rest
    if ss.ignore_run then
      (ss :: tail.1, tail.2)
    else
      let r := stress_kill_workers signum ss.workers
      ({ ss with workers := r.1 } :: tail.1, r.2 ++ tail.2)

/-- Embedding of stress_kill_stressors (src/stress-ng.c:518-550).  count is the
function's static counter; it is incremented only when force_sigkill is true,
and once it exceeds 5 the delivered signal becomes SIGKILL instead of sig.
Returns the new counter, updated stressor list and the (pid, signal) deliveries. -/
def stress_kill_stressors (sig : Nat) (force_sigkill : Bool) (count : Nat)
    (l : List KStressor) : Nat × List KStressor × List (Nat × Nat) :=
  let count' := if force_sigkill then count + 1 else count
  let signum := if force_sigkill && decide (count' > 5) then SIGKILL else sig
  let r := stress_kill_list signum l
  (count', r.1, r.2)

/-- Driver for a sequence of stress_kill_stressors invocations: each call
supplies the signal, the force_sigkill argument and the stressor list it acts
on (the list changes between calls as workers are forked and reaped); the
static counter persists across calls.  Returns the final counter and the
deliveries made by each call in order. -/
def stress_kill_sequence : List (Nat × Bool × List KStressor) → Nat →
    Nat × List (List (Nat × Nat))
  | [], c => (c, [])
  | call :: rest, c =>
    let r := stress_kill_stressors call.1 call.2.1 c call.2.2
    let rr := stress_kill_sequence rest r.1
    (rr.1, r.2.2 :: rr.2)

/-- Embedding of the checksum-table mapping size computation in
stress_shared_map (src/stress-ng.c:2352-2353):
sz = (len + page_size) and-not (page_size - 1) on 64-bit size_t, with
len = sizeof(stress_checksum_t) * num_procs.  slot_size stands for
sizeof(stress_checksum_t), which is defined in a header not under src/. -/
def stress_checksum_map_size (num_procs slot_size page_size : Nat) : Nat :=
  let len := slot_size * num_procs
  ((len + page_size) % 2 ^ 64) &&& ((2 ^ 64 - 1) - (page_size - 1))

/-- Definition following the words of the spec for comparison with
stress_checksum_map_size: roundup(x, align) rounds x up to the next multiple
of align. -/
def spec_roundup (x align : Nat) : Nat := ((x + align - 1) / align) * align

/-- Definition following the words of the spec for comparison with
stress_checksum_map_size: the spec states the second mapping has size
roundup(T·sizeof(ChecksumSlot) + pagesize, pagesize). -/
def spec_checksum_map_size (num_procs slot_size page_size : Nat) : Nat :=
  spec_roundup (num_procs * slot_size + page_size) page_size

/-- One step of the Jenkins one-at-a-time hash on a byte, 32-bit wrapping.
Modelled from the spec: stress_hash_jenkin lives in core-hash.c, which is not
under src/; §9 fixes it as the Jenkins one-at-a-time hash over the packed
struct bytes. -/
def jenkin_step (h b : Nat) : Nat :=
  let h1 := (h + b) % 2 ^ 32
  let h2 := (h1 + (h1 <<< 10)) % 2 ^ 32
  h2 ^^^ (h2 >>> 6)

/-- Jenkins one-at-a-time hash of a byte list, 32-bit wrapping.  Modelled from
the spec (see jenkin_step). -/
def stress_hash_jenkin (bytes : List Nat) : Nat :=
  let h := bytes.foldl jenkin_step 0
  let h1 := (h + (h <<< 3)) % 2 ^ 32
  let h2 := h1 ^^^ (h1 >>> 11)
  (h2 + (h2 <<< 15)) % 2 ^ 32

/-- Number of reserved padding bytes in the checksum data struct.  Modelled
from the spec: the struct layout lives in a header not under src/; the data
packs a u64 counter and a bool run_ok followed by zeroed pad bytes. -/
def checksum_pad_bytes : Nat := 7

/-- Payload of a ChecksumSlot: checksum->data, i.e. the packed
{ ci.counter, ci.run_ok, pad } bytes that get hashed. -/
structure ChecksumData where
  counter : Nat
  run_ok : Bool
  pad : List Nat
deriving Repr, DecidableEq

/-- One slot of the parallel checksum table (stress_checksum_t): the packed
data and its 32-bit hash. -/
structure ChecksumSlot where
  data : ChecksumData
  hash : Nat
deriving Repr, DecidableEq

/-- Little-endian byte serialization of a u64 field. -/
def u64_bytes (x : Nat) : List Nat :=
  (List.range 8).map (fun i => x / 256 ^ i % 256)

/-- Byte serialization of checksum->data as hashed by stress_hash_checksum:
the packed counter, run_ok and pad bytes.  The layout is modelled from the
spec (header not under src/); both the writer (stress_run_child) and the
checker (stress_metrics_check) hash this same serialization. -/
def checksum_data_bytes (d : ChecksumData) : List Nat :=
  u64_bytes d.counter ++ [if d.run_ok then 1 else 0] ++ d.pad

/-- Embedding of stress_hash_checksum (src/stress-ng.c:370-374): store the
Jenkins hash of the packed data bytes into the slot. -/
def stress_hash_checksum (c : ChecksumSlot) : ChecksumSlot :=
  { c with hash := stress_hash_jenkin (checksum_data_bytes c.data) }

/-- stats->ci, the bogo-ops counter block of a stats slot
(counter, counter_ready, run_ok, force_killed). -/
structure CounterInfo where
  counter : Nat
  counter_ready : Bool
  run_ok : Bool
  force_killed : Bool
deriving Repr, DecidableEq

/-- Environment of one stress_run_child execution: the branch conditions and
the values produced by the stressor body.  rc_run is the value of rc right
after the stressor invocation, interrupts check and pr_fail_check
(src/stress-ng.c:1437-1444); ci_after is stats->ci as left by the stressor
body (its run_ok field is overwritten below); terminate_signum is the value
of the terminate_signum global when the child reaches child_exit. -/
structure RunChildEnv where
  handler_ok : Bool
  continue_flag : Bool
  dry_run : Bool
  rc_run : Nat
  ci_after : CounterInfo
  terminate_signum : Nat
deriving Repr, DecidableEq

/-- Child-visible outcome of stress_run_child: the exit code passed to _exit,
stats->completed, stats->ci and the checksum slot. -/
structure RunChildOut where
  rc : Nat
  completed : Bool
  ci : CounterInfo
  checksum : ChecksumSlot
deriving Repr, DecidableEq

/-- Embedding of the child_exit epilogue of stress_run_child
(src/stress-ng.c:1525-1544): a recorded terminating signal forces the exit
code to EXIT_SIGNALED. -/
def stress_run_child_exit (env : RunChildEnv) (o : RunChildOut) : RunChildOut :=
  if env.terminate_signum ≠ 0 then { o with rc := EXIT_SIGNALED } else o

/-- Embedding of stress_run_child (src/stress-ng.c:1355-1545) restricted to
the state the claims are about: the exit code, stats->completed, stats->ci and
the checksum slot.  completed0, ci0 and cs0 are the shared-memory values on
entry.  Logging, rusage capture, perf and the shared instance counters are
environment effects not modelled.  When the handler installation fails the
child exits EXIT_FAILURE; when the continue flag is clear or dry-run is set
the stressor is not invoked and the slots are left untouched; otherwise the
run branch (src/stress-ng.c:1420-1489) zeroes the checksum slot, invokes the
stressor, records completed, run_ok, the counter and finally the hash. -/
def stress_run_child (env : RunChildEnv) (completed0 : Bool) (ci0 : CounterInfo)
    (cs0 : ChecksumSlot) : RunChildOut :=
  if !env.handler_ok then
    stress_run_child_exit env ⟨EXIT_FAILURE, completed0, ci0, cs0⟩
  else if env.continue_flag && !env.dry_run then
    let zero_pad : List Nat := List.replicate checksum_pad_bytes 0
    let rc := env.rc_run
    let ok := rc == EXIT_SUCCESS
    let ci1 := { env.ci_after with run_ok := ok }
    let cs1 : ChecksumSlot := ⟨⟨0, ok, zero_pad⟩, 0⟩
    let rc1 := if !ci1.counter_ready && !ci1.force_killed then
      EXIT_METRICS_UNTRUSTWORTHY else rc
    let cs2 := { cs1 with data := { cs1.data with counter := ci1.counter } }
    let cs3 := stress_hash_checksum cs2
    stress_run_child_exit env ⟨rc1, true, ci1, cs3⟩
  else
    stress_run_child_exit env ⟨EXIT_SUCCESS, completed0, ci0, cs0⟩

/-- One stats slot as read by stress_metrics_check: stats->completed,
stats->ci.counter, stats->ci.run_ok and the stats->checksum pointer (none
models a NULL pointer). -/
structure MCSlot where
  completed : Bool
  counter : Nat
  run_ok : Bool
  checksum : Option ChecksumSlot
deriving Repr, DecidableEq

/-- Embedding of the per-slot validation of stress_metrics_check
(src/stress-ng.c:1804-1833): a NULL checksum fails; otherwise a fresh zeroed
slot is rebuilt from the live counter and run_ok, hashed, and the live
counter, live run_ok and rebuilt hash are compared with the stored slot.  The
result is true exactly when none of the pr_fail branches fire. -/
def stress_metrics_check_slot (s : MCSlot) : Bool :=
  match s.checksum with
  | none => false
  | some c =>
    let rebuilt := stress_hash_checksum
      ⟨⟨s.counter, s.run_ok, List.replicate checksum_pad_bytes 0⟩, 0⟩
    (s.counter == c.data.counter) && (s.run_ok == c.data.run_ok) &&
      (rebuilt.hash == c.hash)

/-- Embedding of the instance loop of stress_metrics_check over one stressor:
slots that are not completed are skipped, each completed slot folds its
validity into ok. -/
def stress_metrics_check_slots (slots : List MCSlot) (ok : Bool) : Bool :=
  slots.foldl (fun ok s => if !s.completed then ok else ok && stress_metrics_check_slot s) ok

/-- Embedding of stress_metrics_check (src/stress-ng.c:1779-1850) restricted
to the success flag: each stressor is a pair of ss->ignore.run and its stats
slots; ignored stressors are skipped; any failed per-slot validation clears
ok, and at the end success is forced to false exactly when ok is false.  The
zero-counter run-time warning heuristic only logs and is not modelled. -/
def stress_metrics_check (stressors : List (Bool × List MCSlot)) (success : Bool) : Bool :=
  let ok := stressors.foldl
    (fun ok ss => if ss.1 then ok else stress_metrics_check_slots ss.2 ok) true
  if ok then success else false

/-- Per-instance input of the auxiliary-metric aggregation for one metric
index: the instance's stats->metrics[i].value and its stats->completed flag. -/
structure AuxSlot where
  value : Rat
  completed : Bool
deriving Repr, DecidableEq

/-- Embedding of the per-metric YAML emission of stress_metrics_dump
(src/stress-ng.c:2032-2051) in exact arithmetic: total sums the metric value
over all instances, and the emitted value is total / completed_instances when
any instance completed, else 0 (completed_instances is counted at
src/stress-ng.c:1924-1928). -/
def stress_metrics_yaml_aux (stats : List AuxSlot) : Rat :=
  let completed := stats.countP (fun s => s.completed)
  let total := (stats.map (fun s => s.value)).sum
  if completed ≠ 0 then total / (completed : Rat) else 0

/-- Accumulator of the miscellaneous-metrics geometric-mean loop of
stress_metrics_dump: the running mantissa product, exponent sum and instance
count (the C code keeps n in a double; it always holds an exact small
integer). -/
structure MiscAccum where
  mantissa : Rat
  exponent : Int
  n : Rat
deriving Repr, DecidableEq

/-- Exact-arithmetic embedding of frexp for rationals: returns (f, e) with
q = f * 2 ^ e, and for q > 0 the exponent e is the unique integer with
2 ^ (e-1) ≤ q < 2 ^ e as the C library guarantees. -/
def rat_frexp (q : Rat) : Rat × Int :=
  if q ≤ 0 then (q, 0)
  else
    let e0 : Int := (Nat.log2 q.num.natAbs : Int) - (Nat.log2 q.den : Int)
    let e : Int := if q < 2 ^ e0 then e0 else e0 + 1
    (q / 2 ^ e, e)

/-- Embedding of the body of the instance loop of the miscellaneous-metrics
aggregation (src/stress-ng.c:2077-2088): instances with value > 0 contribute
their frexp mantissa multiplicatively, their exponent additively, and bump n. -/
def stress_misc_metric_step (acc : MiscAccum) (v : Rat) : MiscAccum :=
  if 0 < v then
    let fe := rat_frexp v
    ⟨acc.mantissa * fe.1, acc.exponent + fe.2, acc.n + 1⟩
  else acc

/-- Embedding of the miscellaneous-metrics accumulation loop of
stress_metrics_dump (src/stress-ng.c:2073-2088) over the per-instance values
of one metric index, in exact arithmetic.  The final reported value
(src/stress-ng.c:2089-2095) is mantissa^(1/n) * 2^(exponent/n) when n > 0 and
0 when n = 0. -/
def stress_misc_metric_accum (values : List Rat) : MiscAccum :=
  values.foldl stress_misc_metric_step ⟨1, 0, 0⟩

/-- One stressor node as seen by stress_run_permute: its ignore.run and
ignore.permute flags. -/
structure PermStressor where
  ignore_run : Bool
  ignore_permute : Bool
deriving Repr, DecidableEq

/-- Limit max_perms on the number of permuted stressors
(src/stress-ng.c:3192). -/
def max_perms : Nat := 16

/-- Embedding of the inner flag-update loop of stress_run_permute
(src/stress-ng.c:3212-3223) for one run i, with j the running index over
not-ignored stressors: every visited stressor first gets ignore.permute set,
ignored ones are then skipped, and the j-th not-ignored stressor gets
ignore.permute cleared exactly when bit j of i is set; the loop stops once
j reaches max_perms, leaving the remaining nodes untouched. -/
def stress_permute_inner : List PermStressor → Nat → Nat → List PermStressor
  | [], _, _ => []
  | s :: rest, i, j =>
    if max_perms ≤ j then s :: rest
    else if s.ignore_run then
      { s with ignore_permute := true } :: stress_permute_inner rest i j
    else
      { s with ignore_permute := decide (i &&& (1 <<< j) = 0) } ::
        stress_permute_inner rest i (j + 1)

/-- Embedding of stress_run_permute (src/stress-ng.c:3183-3231) under an
uninterrupted run (stress_continue_flag stays true): all permute flags start
true, perms counts the not-ignored stressors clamped to max_perms, and for
each i = 1 .. 2^perms - 1 the inner loop masks the flags and a parallel run is
driven.  The result is the list of per-run stressor states, in run order; a
stressor participates in a run exactly when both its ignore flags are clear
(src/stress-ng.c:1582).  stress_permute_runs is the i loop
(src/stress-ng.c:3208-3227), threading the mutated flag state from run to
run. -/
def stress_permute_runs (st : List PermStressor) : List Nat → List (List PermStressor)
  | [] => []
  | i :: is =>
    stress_permute_inner st i 0 ::
      stress_permute_runs (stress_permute_inner st i 0) is

def stress_run_permute (l : List PermStressor) : List (List PermStressor) :=
  let l1 := l.map (fun s => { s with ignore_permute := true })
  let perms0 := l.countP (fun s => !s.ignore_run)
  let perms := if max_perms < perms0 then max_perms else perms0
  let num_perms := 2 ^ perms
  stress_permute_runs l1 (List.range' 1 (num_perms - 1))

/-- Participation of a stressor node in a driven run: stress_run skips a node
when ignore.run or ignore.permute is set (src/stress-ng.c:1582). -/
def stress_participates (s : PermStressor) : Bool :=
  !s.ignore_run && !s.ignore_permute

/-- Index of a node among the not-ignored stressors: the number of not-ignored
nodes strictly before position n.  This is the value of the loop counter j
when the inner loop of stress_run_permute visits position n. -/
def enabled_idx (l : List PermStressor) (n : Nat) : Nat :=
  (l.take n).countP (fun s => !s.ignore_run)

/-- Invariant of the permute flag state between runs, with j the starting
value of the inner loop counter: every node the inner loop cannot reach
(because the counter would already be at max_perms) still carries
ignore.permute = true from the initial all-true pass
(src/stress-ng.c:3195-3199). -/
def perm_inv (st : List PermStressor) (j : Nat) : Prop :=
  ∀ n, n < st.length → max_perms ≤ j + enabled_idx st n →
    (st.getD n ⟨false, false⟩).ignore_permute = true

/-- Concrete invocation sequence for stress_kill_stressors: five forced calls
followed by a non-forced call (as stress_sigalrm_handler makes,
src/stress-ng.c:586) acting on one live, not-yet-signalled worker. -/
def c6_calls_a : List (Nat × Bool × List KStressor) :=
  [(SIGALRM, true, []), (SIGALRM, true, []), (SIGALRM, true, []),
   (SIGALRM, true, []), (SIGALRM, true, []),
   (SIGALRM, false, [⟨false, [⟨1, false⟩]⟩])]

/-- Concrete invocation sequence for stress_kill_stressors: six forced calls,
the last acting on one live, not-yet-signalled worker. -/
def c6_calls_b : List (Nat × Bool × List KStressor) :=
  [(SIGALRM, true, []), (SIGALRM, true, []), (SIGALRM, true, []),
   (SIGALRM, true, []), (SIGALRM, true, []),
   (SIGALRM, true, [⟨false, [⟨1, false⟩]⟩])]

/- Theorems. -/

theorem stress_run_child_exit_completed (env : RunChildEnv) (o : RunChildOut) :
    (stress_run_child_exit env o).completed = o.completed := by
  unfold stress_run_child_exit
  split <;> rfl

theorem stress_run_child_exit_ci (env : RunChildEnv) (o : RunChildOut) :
    (stress_run_child_exit env o).ci = o.ci := by
  unfold stress_run_child_exit
  split <;> rfl

theorem stress_run_child_exit_checksum (env : RunChildEnv) (o : RunChildOut) :
    (stress_run_child_exit env o).checksum = o.checksum := by
  unfold stress_run_child_exit
  split <;> rfl

theorem stress_hash_checksum_data (c : ChecksumSlot) :
    (stress_hash_checksum c).data = c.data := rfl

theorem stress_hash_checksum_hash (c : ChecksumSlot) :
    (stress_hash_checksum c).hash = stress_hash_jenkin (checksum_data_bytes c.data) := rfl

/-- C3 counterexample: reaping a child with wait status EXIT_NOT_SUCCESS (2, an
"other" status) sets success to false and requests abort, but does not
increment the FAILED bucket, contradicting the claim that every other status
increments FAILED. -/
theorem c3_exit_classification_counterexample :
    (stress_wait_pid_exit 2 ⟨true, true, true, false⟩ ⟨0, 0, 0, 0⟩).2.failed = 0 ∧
    ¬ (stress_wait_pid_exit 2 ⟨true, true, true, false⟩ ⟨0, 0, 0, 0⟩).2.failed = 0 + 1 ∧
    (stress_wait_pid_exit 2 ⟨true, true, true, false⟩ ⟨0, 0, 0, 0⟩).1.success = false ∧
    (stress_wait_pid_exit 2 ⟨true, true, true, false⟩ ⟨0, 0, 0, 0⟩).1.do_abort = true := by
  decide

/-- C3 (amended): exit classification of a reaped child maps its wait status
exactly per the table of stress_wait_pid: SUCCESS increments PASSED;
NO_RESOURCE increments SKIPPED, clears resource_success and requests abort;
NOT_IMPLEMENTED increments SKIPPED and requests abort; SIGNALED requests abort
only; BY_SYS_EXIT increments FAILED and requests abort; METRICS_UNTRUSTWORTHY
increments BAD_METRICS and clears metrics_success; FAILURE increments FAILED,
clears success and requests abort; every other status clears success and
requests abort without incrementing any bucket. -/
theorem c3_exit_classification (f : WaitFlags) (c : StatusCounts) :
    stress_wait_pid_exit EXIT_SUCCESS f c = (f, { c with passed := c.passed + 1 }) ∧
    stress_wait_pid_exit EXIT_NO_RESOURCE f c =
      ({ f with resource_success := false, do_abort := true },
       { c with skipped := c.skipped + 1 }) ∧
    stress_wait_pid_exit EXIT_NOT_IMPLEMENTED f c =
      ({ f with do_abort := true }, { c with skipped := c.skipped + 1 }) ∧
    stress_wait_pid_exit EXIT_SIGNALED f c = ({ f with do_abort := true }, c) ∧
    stress_wait_pid_exit EXIT_BY_SYS_EXIT f c =
      ({ f with do_abort := true }, { c with failed := c.failed + 1 }) ∧
    stress_wait_pid_exit EXIT_METRICS_UNTRUSTWORTHY f c =
      ({ f with metrics_success := false }, { c with bad_metrics := c.bad_metrics + 1 }) ∧
    stress_wait_pid_exit EXIT_FAILURE f c =
      ({ f with success := false, do_abort := true }, { c with failed := c.failed + 1 }) ∧
    (∀ w : Nat, w ≠ EXIT_SUCCESS → w ≠ EXIT_NO_RESOURCE → w ≠ EXIT_NOT_IMPLEMENTED →
      w ≠ EXIT_SIGNALED → w ≠ EXIT_BY_SYS_EXIT → w ≠ EXIT_METRICS_UNTRUSTWORTHY →
      w ≠ EXIT_FAILURE →
      stress_wait_pid_exit w f c = ({ f with success := false, do_abort := true }, c)) := by
  refine ⟨?_, ?_, ?_, ?_, ?_, ?_, ?_, ?_⟩
  · norm_num [stress_wait_pid_exit, EXIT_SUCCESS]
  · norm_num [stress_wait_pid_exit, EXIT_SUCCESS, EXIT_NO_RESOURCE]
  · norm_num [stress_wait_pid_exit, EXIT_SUCCESS, EXIT_NO_RESOURCE, EXIT_NOT_IMPLEMENTED]
  · norm_num [stress_wait_pid_exit, EXIT_SUCCESS, EXIT_NO_RESOURCE, EXIT_NOT_IMPLEMENTED,
      EXIT_SIGNALED]
  · norm_num [stress_wait_pid_exit, EXIT_SUCCESS, EXIT_NO_RESOURCE, EXIT_NOT_IMPLEMENTED,
      EXIT_SIGNALED, EXIT_BY_SYS_EXIT]
  · norm_num [stress_wait_pid_exit, EXIT_SUCCESS, EXIT_NO_RESOURCE, EXIT_NOT_IMPLEMENTED,
      EXIT_SIGNALED, EXIT_BY_SYS_EXIT, EXIT_METRICS_UNTRUSTWORTHY]
  · norm_num [stress_wait_pid_exit, EXIT_SUCCESS, EXIT_NO_RESOURCE, EXIT_NOT_IMPLEMENTED,
      EXIT_SIGNALED, EXIT_BY_SYS_EXIT, EXIT_METRICS_UNTRUSTWORTHY, EXIT_FAILURE]
  · intro w h0 h3 h4 h5 h6 h7 h1
    simp [stress_wait_pid_exit, h0, h3, h4, h5, h6, h7, h1]

/-- C3 witness: the amended classification applied at the concrete other
status 2 with zeroed buckets. -/
theorem c3_exit_classification_witness :
    stress_wait_pid_exit 2 ⟨true, true, true, false⟩ ⟨0, 0, 0, 0⟩ =
      (⟨false, true, true, true⟩, ⟨0, 0, 0, 0⟩) :=
  (c3_exit_classification ⟨true, true, true, false⟩ ⟨0, 0, 0, 0⟩).2.2.2.2.2.2.2 2
    (by decide) (by decide) (by decide) (by decide) (by decide) (by decide) (by decide)

/-- C4: the orchestrator's final exit code is determined by the success flags
in this precedence: success false exits NOT_SUCCESS, else resource_success
false exits NO_RESOURCE, else metrics_success false exits
METRICS_UNTRUSTWORTHY, else SUCCESS. -/
theorem c4_main_exit_code_precedence (s rs ms : Bool) :
    (s = false → stress_main_exit_code s rs ms = EXIT_NOT_SUCCESS) ∧
    (s = true → rs = false → stress_main_exit_code s rs ms = EXIT_NO_RESOURCE) ∧
    (s = true → rs = true → ms = false →
      stress_main_exit_code s rs ms = EXIT_METRICS_UNTRUSTWORTHY) ∧
    (s = true → rs = true → ms = true → stress_main_exit_code s rs ms = EXIT_SUCCESS) := by
  cases s <;> cases rs <;> cases ms <;> decide

/-- C4 witness: a failed run exits NOT_SUCCESS even when the other flags are
still good. -/
theorem c4_main_exit_code_witness :
    stress_main_exit_code false true true = EXIT_NOT_SUCCESS :=
  (c4_main_exit_code_precedence false true true).1 rfl

/-- C5: death by SIGALRM, an OOM kill, or SIGKILL (OOM detection inconclusive)
leaves the success flag unchanged; death by any other signal clears it. -/
theorem c5_signal_death (oomed : Bool) (wterm : Nat) (success : Bool) :
    ((wterm = SIGALRM ∨ oomed = true ∨ wterm = SIGKILL) →
      stress_wait_pid_signal_death oomed wterm success = success) ∧
    (oomed = false → wterm ≠ SIGALRM → wterm ≠ SIGKILL →
      stress_wait_pid_signal_death oomed wterm success = false) := by
  constructor
  · rintro (h | h | h) <;>
      simp [stress_wait_pid_signal_death, h, SIGALRM, SIGKILL]
  · intro h1 h2 h3
    simp [stress_wait_pid_signal_death, h1, h2, h3]

/-- C5 witness: a worker terminated by SIGALRM with success still true. -/
theorem c5_signal_death_witness :
    stress_wait_pid_signal_death false SIGALRM true = true :=
  (c5_signal_death false SIGALRM true).1 (Or.inl rfl)

/-- C10: if a terminating signal has been recorded by the time the child
reaches its exit sequence, the exit code is forced to EXIT_SIGNALED,
overriding the stressor return value and any earlier promotion. -/
theorem c10_terminate_forces_signaled (env : RunChildEnv) (completed0 : Bool)
    (ci0 : CounterInfo) (cs0 : ChecksumSlot) (h : env.terminate_signum ≠ 0) :
    (stress_run_child env completed0 ci0 cs0).rc = EXIT_SIGNALED := by
  unfold stress_run_child
  split
  · simp [stress_run_child_exit, h]
  · split <;> simp [stress_run_child_exit, h]

/-- C10 witness: a child whose stressor returned EXIT_METRICS_UNTRUSTWORTHY
material (rc 7) but with terminate_signum 11 recorded exits EXIT_SIGNALED. -/
theorem c10_terminate_forces_signaled_witness :
    (stress_run_child ⟨true, true, false, 7, ⟨0, true, false, false⟩, 11⟩ false
      ⟨0, true, false, false⟩ ⟨⟨0, false, []⟩, 0⟩).rc = EXIT_SIGNALED :=
  c10_terminate_forces_signaled ⟨true, true, false, 7, ⟨0, true, false, false⟩, 11⟩ false
    ⟨0, true, false, false⟩ ⟨⟨0, false, []⟩, 0⟩ (by decide)

/-- C1: for a worker started on a fresh stats slot (completed still clear)
whose stressor run completed (the completed flag is set at exit), the parallel
checksum slot satisfies hash = jenkins(data) over the packed data bytes with
the pad zeroed, and data.counter and data.run_ok equal the live
stats->ci.counter and stats->ci.run_ok. -/
theorem c1_checksum_invariant (env : RunChildEnv) (ci0 : CounterInfo)
    (cs0 : ChecksumSlot)
    (h : (stress_run_child env false ci0 cs0).completed = true) :
    (stress_run_child env false ci0 cs0).checksum.hash =
      stress_hash_jenkin
        (checksum_data_bytes (stress_run_child env false ci0 cs0).checksum.data) ∧
    (stress_run_child env false ci0 cs0).checksum.data.counter =
      (stress_run_child env false ci0 cs0).ci.counter ∧
    (stress_run_child env false ci0 cs0).checksum.data.run_ok =
      (stress_run_child env false ci0 cs0).ci.run_ok ∧
    (stress_run_child env false ci0 cs0).checksum.data.pad =
      List.replicate checksum_pad_bytes 0 := by
  by_cases hh : env.handler_ok = true
  · by_cases hc : (env.continue_flag && !env.dry_run) = true
    · simp [stress_run_child, hh, hc, stress_run_child_exit_checksum,
        stress_run_child_exit_ci, stress_hash_checksum_data, stress_hash_checksum_hash]
    · simp [stress_run_child, hh, hc, stress_run_child_exit_completed] at h
  · simp [stress_run_child, hh, stress_run_child_exit_completed] at h

/-- C1 witness: a concrete completed run (stressor returned 0 with counter 42)
satisfies the checksum invariant. -/
theorem c1_checksum_invariant_witness :
    (stress_run_child ⟨true, true, false, 0, ⟨42, true, false, false⟩, 0⟩ false
      ⟨0, true, false, false⟩ ⟨⟨0, false, []⟩, 0⟩).completed = true ∧
    ((stress_run_child ⟨true, true, false, 0, ⟨42, true, false, false⟩, 0⟩ false
      ⟨0, true, false, false⟩ ⟨⟨0, false, []⟩, 0⟩).checksum.hash =
      stress_hash_jenkin
        (checksum_data_bytes (stress_run_child
          ⟨true, true, false, 0, ⟨42, true, false, false⟩, 0⟩ false
          ⟨0, true, false, false⟩ ⟨⟨0, false, []⟩, 0⟩).checksum.data) ∧
    (stress_run_child ⟨true, true, false, 0, ⟨42, true, false, false⟩, 0⟩ false
      ⟨0, true, false, false⟩ ⟨⟨0, false, []⟩, 0⟩).checksum.data.counter =
      (stress_run_child ⟨true, true, false, 0, ⟨42, true, false, false⟩, 0⟩ false
        ⟨0, true, false, false⟩ ⟨⟨0, false, []⟩, 0⟩).ci.counter ∧
    (stress_run_child ⟨true, true, false, 0, ⟨42, true, false, false⟩, 0⟩ false
      ⟨0, true, false, false⟩ ⟨⟨0, false, []⟩, 0⟩).checksum.data.run_ok =
      (stress_run_child ⟨true, true, false, 0, ⟨42, true, false, false⟩, 0⟩ false
        ⟨0, true, false, false⟩ ⟨⟨0, false, []⟩, 0⟩).ci.run_ok ∧
    (stress_run_child ⟨true, true, false, 0, ⟨42, true, false, false⟩, 0⟩ false
      ⟨0, true, false, false⟩ ⟨⟨0, false, []⟩, 0⟩).checksum.data.pad =
      List.replicate checksum_pad_bytes 0) :=
  ⟨by decide,
   c1_checksum_invariant ⟨true, true, false, 0, ⟨42, true, false, false⟩, 0⟩
     ⟨0, true, false, false⟩ ⟨⟨0, false, []⟩, 0⟩ (by decide)⟩

theorem stress_metrics_check_slots_eq (slots : List MCSlot) (b : Bool) :
    stress_metrics_check_slots slots b =
      (b && slots.all (fun s => !s.completed || stress_metrics_check_slot s)) := by
  induction slots generalizing b with
  | nil => simp [stress_metrics_check_slots]
  | cons s rest ih =>
    have hstep : stress_metrics_check_slots (s :: rest) b =
        stress_metrics_check_slots rest
          (if !s.completed then b else b && stress_metrics_check_slot s) := rfl
    rw [hstep, ih]
    cases hcomp : s.completed <;>
      simp [List.all_cons, hcomp, Bool.and_assoc]

theorem stress_metrics_check_ok_eq (l : List (Bool × List MCSlot)) (b : Bool) :
    l.foldl (fun ok ss => if ss.1 then ok else stress_metrics_check_slots ss.2 ok) b =
      (b && l.all (fun ss =>
        ss.1 || ss.2.all (fun s => !s.completed || stress_metrics_check_slot s))) := by
  induction l generalizing b with
  | nil => simp
  | cons ss rest ih =>
    have hstep : (ss :: rest).foldl
        (fun ok ss => if ss.1 then ok else stress_metrics_check_slots ss.2 ok) b =
        rest.foldl (fun ok ss => if ss.1 then ok else stress_metrics_check_slots ss.2 ok)
          (if ss.1 then b else stress_metrics_check_slots ss.2 b) := rfl
    rw [hstep, ih]
    cases hig : ss.1 <;>
      simp [List.all_cons, hig, stress_metrics_check_slots_eq, Bool.and_assoc]

/-- C2: the post-run validation pass rebuilds a checksum from the live counter
and run_ok of each completed slot of each not-ignored stressor; if the rebuilt
counter, run_ok or hash differs from the stored slot anywhere (a missing slot
also counts as a mismatch) the success flag comes out false, and if every
completed slot validates the pass returns the success flag unchanged. -/
theorem c2_metrics_check (l : List (Bool × List MCSlot)) (success : Bool) :
    ((∀ ss ∈ l, ss.1 = false → ∀ s ∈ ss.2, s.completed = true →
        stress_metrics_check_slot s = true) →
      stress_metrics_check l success = success) ∧
    (∀ ss ∈ l, ss.1 = false → ∀ s ∈ ss.2, s.completed = true →
      stress_metrics_check_slot s = false →
      stress_metrics_check l success = false) := by
  constructor
  · intro hall
    have hok : l.all (fun ss =>
        ss.1 || ss.2.all (fun s => !s.completed || stress_metrics_check_slot s)) = true := by
      rw [List.all_eq_true]
      intro ss hss
      cases hig : ss.1 with
      | true => simp
      | false =>
        simp only [Bool.false_or, List.all_eq_true]
        intro s hs
        cases hcomp : s.completed with
        | false => simp
        | true => simp [hall ss hss hig s hs hcomp]
    simp [stress_metrics_check, stress_metrics_check_ok_eq, hok]
  · intro ss hss hig s hs hcomp hbad
    have hok : l.all (fun ss =>
        ss.1 || ss.2.all (fun s => !s.completed || stress_metrics_check_slot s)) = false := by
      rw [List.all_eq_false]
      refine ⟨ss, hss, ?_⟩
      simp only [hig, Bool.false_or, Bool.not_eq_true, List.all_eq_false]
      exact ⟨s, hs, by simp [hcomp, hbad]⟩
    simp [stress_metrics_check, stress_metrics_check_ok_eq, hok]

/-- C2 witness: one not-ignored stressor with one completed slot whose stored
checksum matches the rebuilt one leaves success true. -/
theorem c2_metrics_check_witness :
    stress_metrics_check
      [(false, [⟨true, 5, true,
        some (stress_hash_checksum ⟨⟨5, true, List.replicate checksum_pad_bytes 0⟩, 0⟩)⟩])]
      true = true :=
  (c2_metrics_check
      [(false, [⟨true, 5, true,
        some (stress_hash_checksum ⟨⟨5, true, List.replicate checksum_pad_bytes 0⟩, 0⟩)⟩])]
      true).1 (by decide)

theorem stress_kill_workers_sends (signum : Nat) (ws : List KWorker) :
    ∀ p ∈ (stress_kill_workers signum ws).2, p.2 = signum := by
  induction ws with
  | nil => intro p hp; simp [stress_kill_workers] at hp
  | cons w ws ih =>
    intro p hp
    simp only [stress_kill_workers, List.mem_append] at hp
    rcases hp with hp | hp
    · unfold stress_kill_worker at hp
      split at hp
      · simp at hp
        rw [hp]
      · simp at hp
    · exact ih p hp

theorem stress_kill_list_sends (signum : Nat) (l : List KStressor) :
    ∀ p ∈ (stress_kill_list signum l).2, p.2 = signum := by
  induction l with
  | nil => intro p hp; simp [stress_kill_list] at hp
  | cons ss rest ih =>
    intro p hp
    unfold stress_kill_list at hp
    split at hp
    · exact ih p hp
    · simp only [List.mem_append] at hp
      rcases hp with hp | hp
      · exact stress_kill_workers_sends signum ss.workers p hp
      · exact ih p hp

/-- C6 counterexample: after five forced invocations of the kill operation, a
sixth invocation made with force_sigkill false (as the parent SIGALRM handler
does) still delivers the caller-supplied SIGALRM to a live, not-yet-signalled
worker, not SIGKILL, contradicting the claim that every invocation past the
fifth delivers SIGKILL regardless of caller. -/
theorem c6_kill_escalation_counterexample :
    (stress_kill_sequence c6_calls_a 0).2.getD 5 [] = [(1, SIGALRM)] ∧
    SIGALRM ≠ SIGKILL := by
  decide

/-- C6 (amended): once the kill operation has been invoked with force_sigkill
set at least 5 times, every later invocation with force_sigkill set delivers
SIGKILL to each live, not-yet-signalled worker in place of the caller-supplied
signal; invocations without force_sigkill never escalate and do not advance
the static counter. -/
theorem c6_kill_escalation (calls : List (Nat × Bool × List KStressor))
    (c0 m : Nat) (hm : m < calls.length)
    (hforce : (calls.get ⟨m, hm⟩).2.1 = true)
    (hcount : 5 ≤ c0 + (calls.take m).countP (fun call => call.2.1)) :
    ∀ p ∈ (stress_kill_sequence calls c0).2.getD m [], p.2 = SIGKILL := by
  induction calls generalizing c0 m with
  | nil => exact absurd hm (by simp)
  | cons call rest ih =>
    cases m with
    | zero =>
      intro p hp
      have hseq : (stress_kill_sequence (call :: rest) c0).2.getD 0 [] =
          (stress_kill_stressors call.1 call.2.1 c0 call.2.2).2.2 := rfl
      rw [hseq] at hp
      simp only [List.take_zero, List.countP_nil, Nat.add_zero] at hcount
      have hget : (call :: rest).get ⟨0, hm⟩ = call := rfl
      rw [hget] at hforce
      have hsig : (stress_kill_stressors call.1 call.2.1 c0 call.2.2).2.2 =
          (stress_kill_list SIGKILL call.2.2).2 := by
        unfold stress_kill_stressors
        have hgt : 5 < c0 + 1 := by omega
        simp [hforce, hgt]
      rw [hsig] at hp
      exact stress_kill_list_sends SIGKILL call.2.2 p hp
    | succ m =>
      have hm' : m < rest.length := Nat.lt_of_succ_lt_succ hm
      have hseq : (stress_kill_sequence (call :: rest) c0).2.getD (m + 1) [] =
          (stress_kill_sequence rest
            (stress_kill_stressors call.1 call.2.1 c0 call.2.2).1).2.getD m [] := rfl
      rw [hseq]
      have hcnt1 : (stress_kill_stressors call.1 call.2.1 c0 call.2.2).1 =
          (if call.2.1 then c0 + 1 else c0) := rfl
      apply ih (if call.2.1 then c0 + 1 else c0) m hm' hforce
      have htake : ((call :: rest).take (m + 1)).countP (fun call => call.2.1) =
          (if call.2.1 then 1 else 0) + (rest.take m).countP (fun call => call.2.1) := by
        simp only [List.take_succ_cons, List.countP_cons]
        cases hfc : call.2.1 <;> simp [hfc]
        all_goals omega
      rw [htake] at hcount
      cases hfc : call.2.1 <;> simp [hfc] at hcount ⊢
      all_goals omega

/-- C6 witness: the amended escalation applied to six forced invocations, the
sixth acting on one live worker: its delivery carries SIGKILL. -/
theorem c6_kill_escalation_witness : ((1 : Nat), SIGKILL).2 = SIGKILL :=
  c6_kill_escalation c6_calls_b 0 5 (by decide) (by decide) (by decide)
    (1, SIGKILL) (by decide)

theorem land_high_mask (x k : Nat) (hk : k ≤ 64) (hx : x < 2 ^ 64) :
    x &&& (2 ^ 64 - 2 ^ k) = x / 2 ^ k * 2 ^ k := by
  have hmask : (2:Nat) ^ 64 - 2 ^ k = (2 ^ (64 - k) - 1) <<< k := by
    rw [Nat.shiftLeft_eq, Nat.sub_mul, one_mul, ← pow_add]
    congr 2
    omega
  have hdiv : x / 2 ^ k * 2 ^ k = (x >>> k) <<< k := by
    rw [Nat.shiftLeft_eq, Nat.shiftRight_eq_div_pow]
  rw [hmask, hdiv]
  apply Nat.eq_of_testBit_eq
  intro i
  rw [Nat.testBit_and, Nat.testBit_shiftLeft, Nat.testBit_shiftLeft,
    Nat.testBit_shiftRight, Nat.testBit_two_pow_sub_one]
  by_cases hik : k ≤ i
  · have hki : k + (i - k) = i := by omega
    rw [hki]
    by_cases hiw : i < 64
    · have hlt : i - k < 64 - k := by omega
      simp [hik, hlt]
    · have hxb : x.testBit i = false :=
        Nat.testBit_lt_two_pow
          (lt_of_lt_of_le hx (Nat.pow_le_pow_right (by norm_num) (by omega)))
      simp [hxb]
  · simp [hik]

/-- C9 counterexample: with one instance, a 24-byte checksum slot and a
4096-byte page, the code maps 4096 bytes ((24 + 4096) rounded down to a page
multiple) while the spec formula roundup(24 + 4096, 4096) gives 8192. -/
theorem c9_checksum_map_size_counterexample :
    stress_checksum_map_size 1 24 4096 = 4096 ∧
    spec_checksum_map_size 1 24 4096 = 8192 ∧
    (4096 : Nat) ≠ 8192 := by
  refine ⟨by decide, by norm_num [spec_checksum_map_size, spec_roundup], by norm_num⟩

/-- C9 (amended): for a power-of-two page size P = 2^k and total instance
count T with no 64-bit overflow, the checksum-table mapping length equals
(T·S/P + 1)·P, i.e. T·S + P rounded down to a multiple of P: the least
multiple of P strictly greater than T·S.  This agrees with
roundup(T·S + P, P) exactly when P divides T·S. -/
theorem c9_checksum_map_size (T S P k : Nat) (hP : P = 2 ^ k) (hk : k ≤ 64)
    (hfit : S * T + P < 2 ^ 64) :
    stress_checksum_map_size T S P = (S * T / P + 1) * P := by
  subst hP
  unfold stress_checksum_map_size
  have h1 : (1:Nat) ≤ 2 ^ k := Nat.one_le_two_pow
  have h2 : (2:Nat) ^ k ≤ 2 ^ 64 := Nat.pow_le_pow_right (by norm_num) hk
  have hmask : (2 ^ 64 - 1) - (2 ^ k - 1) = 2 ^ 64 - 2 ^ k := by omega
  have hmod : (S * T + 2 ^ k) % 2 ^ 64 = S * T + 2 ^ k := Nat.mod_eq_of_lt hfit
  simp only [hmod, hmask]
  rw [land_high_mask (S * T + 2 ^ k) k hk hfit,
    Nat.add_div_right _ (Nat.pos_pow_of_pos k (by norm_num))]

/-- C9 witness: the amended length formula at three 24-byte slots and a
4096-byte page. -/
theorem c9_checksum_map_size_witness :
    stress_checksum_map_size 3 24 4096 = (24 * 3 / 4096 + 1) * 4096 :=
  c9_checksum_map_size 3 24 4096 12 (by norm_num) (by norm_num) (by norm_num)

theorem rat_frexp_mul (q : Rat) : (rat_frexp q).1 * (2:Rat) ^ (rat_frexp q).2 = q := by
  unfold rat_frexp
  split
  · norm_num
  · have h : ∀ e : Int, q / (2:Rat) ^ e * (2:Rat) ^ e = q := fun e =>
      div_mul_cancel₀ q (zpow_ne_zero e (by norm_num))
    exact h _

theorem stress_misc_metric_accum_general (values : List Rat) (acc : MiscAccum) :
    (values.foldl stress_misc_metric_step acc).mantissa *
        (2:Rat) ^ (values.foldl stress_misc_metric_step acc).exponent =
      acc.mantissa * (2:Rat) ^ acc.exponent * (values.filter (fun v => 0 < v)).prod ∧
    (values.foldl stress_misc_metric_step acc).n =
      acc.n + ((values.filter (fun v => 0 < v)).length : Rat) := by
  induction values generalizing acc with
  | nil => simp
  | cons v rest ih =>
    rcases ih (stress_misc_metric_step acc v) with ⟨h1, h2⟩
    by_cases hv : (0:Rat) < v
    · have hstep : stress_misc_metric_step acc v =
          ⟨acc.mantissa * (rat_frexp v).1, acc.exponent + (rat_frexp v).2, acc.n + 1⟩ := by
        simp [stress_misc_metric_step, hv]
      have hfil : (v :: rest).filter (fun v => 0 < v) =
          v :: rest.filter (fun v => 0 < v) := by
        simp [List.filter_cons, hv]
      constructor
      · rw [List.foldl_cons, h1, hstep, hfil, List.prod_cons,
          zpow_add₀ (by norm_num : (2:Rat) ≠ 0)]
        have hq := rat_frexp_mul v
        calc acc.mantissa * (rat_frexp v).1 *
              ((2:Rat) ^ acc.exponent * (2:Rat) ^ (rat_frexp v).2) *
              (rest.filter (fun v => 0 < v)).prod
            = acc.mantissa * (2:Rat) ^ acc.exponent *
              (((rat_frexp v).1 * (2:Rat) ^ (rat_frexp v).2) *
                (rest.filter (fun v => 0 < v)).prod) := by ring
          _ = acc.mantissa * (2:Rat) ^ acc.exponent *
              (v * (rest.filter (fun v => 0 < v)).prod) := by rw [hq]
          _ = acc.mantissa * (2:Rat) ^ acc.exponent *
              ((v :: rest.filter (fun v => 0 < v)).prod) := by rw [List.prod_cons]
      · rw [List.foldl_cons, h2, hstep, hfil]
        simp only [List.length_cons]
        push_cast
        ring
    · have hstep : stress_misc_metric_step acc v = acc := by
        simp [stress_misc_metric_step, hv]
      have hfil : (v :: rest).filter (fun v => 0 < v) =
          rest.filter (fun v => 0 < v) := by
        simp [List.filter_cons, hv]
      rw [hstep] at h1 h2
      rw [List.foldl_cons, hstep, hfil]
      exact ⟨h1, h2⟩

/-- C8 counterexample: for one aux metric of a stressor with two completed
instances holding values 2 and 8, the YAML output emits (2 + 8) / 2 = 5,
while the geometric mean over the positive values is 4 (the nonnegative
rational whose square is their product 16): the YAML value is not the
geometric mean. -/
theorem c8_yaml_aux_counterexample :
    stress_metrics_yaml_aux [⟨2, true⟩, ⟨8, true⟩] = 5 ∧
    (4:Rat) ^ 2 = (([2, 8] : List Rat).filter (fun v => 0 < v)).prod ∧
    (0:Rat) ≤ 4 ∧
    stress_metrics_yaml_aux [⟨2, true⟩, ⟨8, true⟩] ≠ 4 := by
  refine ⟨?_, by norm_num, by norm_num, ?_⟩ <;>
    norm_num [stress_metrics_yaml_aux, List.countP_cons]

/-- C8 (amended): the miscellaneous-metrics aggregation accumulates over
exactly the instances whose value is positive: its mantissa·2^exponent equals
their product and n equals their count, so the reported
mantissa^(1/n)·2^(exponent/n) is their geometric mean, and n = 0 (where the
code reports 0) holds exactly when no instance has a positive value.  The
per-metric YAML value is instead the sum of the metric over all instances
divided by the completed-instance count. -/
theorem c8_misc_metric_geomean (values : List Rat) (stats : List AuxSlot)
    (hc : stats.countP (fun s => s.completed) ≠ 0) :
    (stress_misc_metric_accum values).mantissa *
        (2:Rat) ^ (stress_misc_metric_accum values).exponent =
      (values.filter (fun v => 0 < v)).prod ∧
    (stress_misc_metric_accum values).n =
      ((values.filter (fun v => 0 < v)).length : Rat) ∧
    ((stress_misc_metric_accum values).n = 0 ↔ values.filter (fun v => 0 < v) = []) ∧
    stress_metrics_yaml_aux stats * (stats.countP (fun s => s.completed) : Rat) =
      (stats.map (fun s => s.value)).sum := by
  rcases stress_misc_metric_accum_general values ⟨1, 0, 0⟩ with ⟨h1, h2⟩
  have hm : (stress_misc_metric_accum values).mantissa *
      (2:Rat) ^ (stress_misc_metric_accum values).exponent =
      (values.filter (fun v => 0 < v)).prod := by
    rw [stress_misc_metric_accum, h1]
    norm_num
  have hn : (stress_misc_metric_accum values).n =
      ((values.filter (fun v => 0 < v)).length : Rat) := by
    rw [stress_misc_metric_accum, h2]
    norm_num
  refine ⟨hm, hn, ?_, ?_⟩
  · rw [hn]
    rw [show ((((values.filter (fun v => 0 < v)).length : Nat) : Rat) = 0) ↔
        ((values.filter (fun v => 0 < v)).length = 0) from Nat.cast_eq_zero]
    exact List.length_eq_zero
  · unfold stress_metrics_yaml_aux
    rw [if_pos hc]
    exact div_mul_cancel₀ _ (Nat.cast_ne_zero.mpr hc)

/-- C8 witness: the amended aggregation at one instance with value 1. -/
theorem c8_misc_metric_geomean_witness :
    ((stress_misc_metric_accum [1]).mantissa *
        (2:Rat) ^ (stress_misc_metric_accum [1]).exponent =
      (([1] : List Rat).filter (fun v => 0 < v)).prod ∧
    (stress_misc_metric_accum [1]).n =
      ((([1] : List Rat).filter (fun v => 0 < v)).length : Rat) ∧
    ((stress_misc_metric_accum [1]).n = 0 ↔
      ([1] : List Rat).filter (fun v => 0 < v) = []) ∧
    stress_metrics_yaml_aux [⟨1, true⟩] *
        (([⟨1, true⟩] : List AuxSlot).countP (fun s => s.completed) : Rat) =
      (([⟨1, true⟩] : List AuxSlot).map (fun s => s.value)).sum) :=
  c8_misc_metric_geomean [1] [⟨1, true⟩] (by decide)

theorem enabled_idx_zero (l : List PermStressor) : enabled_idx l 0 = 0 := by
  simp [enabled_idx]

theorem enabled_idx_cons (s : PermStressor) (rest : List PermStressor) (n : Nat) :
    enabled_idx (s :: rest) (n + 1) =
      enabled_idx rest n + (if s.ignore_run then 0 else 1) := by
  unfold enabled_idx
  rw [List.take_succ_cons, List.countP_cons]
  cases h : s.ignore_run <;> simp [h]

theorem perm_set_true_eq (s : PermStressor) (h : s.ignore_permute = true) :
    { s with ignore_permute := true } = s := by
  cases s
  simp_all

theorem stress_permute_inner_map_run (st : List PermStressor) (i j : Nat) :
    (stress_permute_inner st i j).map (fun s => s.ignore_run) =
      st.map (fun s => s.ignore_run) := by
  induction st generalizing j with
  | nil => rfl
  | cons s rest ih =>
    unfold stress_permute_inner
    by_cases hj : max_perms ≤ j
    · simp [hj]
    · by_cases hig : s.ignore_run = true <;>
        simp [hj, hig, ih]

theorem stress_permute_inner_length (st : List PermStressor) (i j : Nat) :
    (stress_permute_inner st i j).length = st.length := by
  have h := congrArg List.length (stress_permute_inner_map_run st i j)
  simpa using h

theorem enabled_idx_congr (st l : List PermStressor)
    (hmap : st.map (fun s => s.ignore_run) = l.map (fun s => s.ignore_run)) (n : Nat) :
    enabled_idx st n = enabled_idx l n := by
  have h1 : ∀ t : List PermStressor,
      enabled_idx t n =
        ((t.map (fun s => s.ignore_run)).take n).countP (fun b => !b) := by
    intro t
    unfold enabled_idx
    rw [← List.map_take, List.countP_map]
    rfl
  rw [h1 st, h1 l, hmap]

theorem map_run_getD (st l : List PermStressor)
    (hmap : st.map (fun s => s.ignore_run) = l.map (fun s => s.ignore_run)) (n : Nat) :
    (st.getD n ⟨false, false⟩).ignore_run = (l.getD n ⟨false, false⟩).ignore_run := by
  induction st generalizing l n with
  | nil =>
    cases l with
    | nil => rfl
    | cons t restl => simp at hmap
  | cons s rest ih =>
    cases l with
    | nil => simp at hmap
    | cons t restl =>
      simp only [List.map_cons, List.cons.injEq] at hmap
      cases n with
      | zero => simpa using hmap.1
      | succ m => simpa using ih restl hmap.2 m

theorem land_one_shift_eq_zero (i j : Nat) :
    (i &&& (1 <<< j) = 0) ↔ i.testBit j = false := by
  rw [Nat.one_shiftLeft]
  constructor
  · intro h
    have h2 := congrArg (fun x => x.testBit j) h
    simpa [Nat.testBit_and, Nat.testBit_two_pow_self] using h2
  · intro h
    apply Nat.eq_of_testBit_eq
    intro m
    by_cases hm : j = m
    · subst hm
      simp [Nat.testBit_and, Nat.testBit_two_pow_self, h]
    · simp [Nat.testBit_and, Nat.testBit_two_pow_of_ne hm]

theorem decide_land_shift (i j : Nat) :
    decide (i &&& (1 <<< j) = 0) = !(i.testBit j) := by
  cases htb : i.testBit j
  · have h0 := (land_one_shift_eq_zero i j).mpr htb
    simp [h0]
  · have h0 : ¬(i &&& (1 <<< j) = 0) := by
      intro hc
      rw [(land_one_shift_eq_zero i j).mp hc] at htb
      exact Bool.noConfusion htb
    simp [h0]

theorem stress_permute_inner_getD (st : List PermStressor) (i : Nat) :
    ∀ j n, perm_inv st j → n < st.length →
    (stress_permute_inner st i j).getD n ⟨false, false⟩ =
      (if (st.getD n ⟨false, false⟩).ignore_run then
        { st.getD n ⟨false, false⟩ with ignore_permute := true }
      else if j + enabled_idx st n < max_perms then
        { st.getD n ⟨false, false⟩ with
            ignore_permute := decide (i &&& (1 <<< (j + enabled_idx st n)) = 0) }
      else st.getD n ⟨false, false⟩) := by
  induction st with
  | nil =>
    intro j n _ hn
    simp at hn
  | cons s rest ih =>
    intro j n hinv hn
    have hbody : stress_permute_inner (s :: rest) i j =
        (if max_perms ≤ j then s :: rest
        else if s.ignore_run then
          { s with ignore_permute := true } :: stress_permute_inner rest i j
        else
          { s with ignore_permute := decide (i &&& (1 <<< j) = 0) } ::
            stress_permute_inner rest i (j + 1)) := rfl
    rw [hbody]
    by_cases hj : max_perms ≤ j
    · rw [if_pos hj]
      have h16 : max_perms ≤ j + enabled_idx (s :: rest) n := by omega
      have hperm := hinv n hn h16
      by_cases hig : ((s :: rest).getD n ⟨false, false⟩).ignore_run = true
      · rw [if_pos hig, perm_set_true_eq _ hperm]
      · rw [if_neg hig, if_neg (by omega)]
    · rw [if_neg hj]
      by_cases hig : s.ignore_run = true
      · rw [if_pos hig]
        cases n with
        | zero =>
          simp only [List.getD_cons_zero]
          rw [if_pos hig]
        | succ m =>
          have hm : m < rest.length := by
            simpa using Nat.lt_of_succ_lt_succ hn
          have hinv' : perm_inv rest j := by
            intro m' hm' h16
            have hidx : enabled_idx (s :: rest) (m' + 1) = enabled_idx rest m' := by
              rw [enabled_idx_cons, if_pos hig]
              omega
            have := hinv (m' + 1) (by simpa using Nat.succ_lt_succ hm')
              (by rw [hidx]; omega)
            simpa using this
          simp only [List.getD_cons_succ]
          rw [ih j m hinv' hm, enabled_idx_cons, if_pos hig]
          simp
      · rw [if_neg hig]
        cases n with
        | zero =>
          simp only [List.getD_cons_zero, enabled_idx_zero]
          rw [if_neg hig, if_pos (by omega : j + 0 < max_perms)]
          simp
        | succ m =>
          have hm : m < rest.length := by
            simpa using Nat.lt_of_succ_lt_succ hn
          have hinv' : perm_inv rest (j + 1) := by
            intro m' hm' h16
            have hidx : enabled_idx (s :: rest) (m' + 1) = enabled_idx rest m' + 1 := by
              rw [enabled_idx_cons, if_neg hig]
            have := hinv (m' + 1) (by simpa using Nat.succ_lt_succ hm')
              (by rw [hidx]; omega)
            simpa using this
          simp only [List.getD_cons_succ]
          rw [ih (j + 1) m hinv' hm, enabled_idx_cons, if_neg hig]
          have harith : j + (enabled_idx rest m + 1) = j + 1 + enabled_idx rest m := by
            omega
          rw [harith]

theorem stress_permute_inner_inv (st : List PermStressor) (i : Nat)
    (hinv : perm_inv st 0) : perm_inv (stress_permute_inner st i 0) 0 := by
  intro n hn h16
  have hlen := stress_permute_inner_length st i 0
  have hn' : n < st.length := by omega
  have hidx : enabled_idx (stress_permute_inner st i 0) n = enabled_idx st n :=
    enabled_idx_congr _ _ (stress_permute_inner_map_run st i 0) n
  rw [hidx] at h16
  rw [stress_permute_inner_getD st i 0 n hinv hn']
  by_cases hig : (st.getD n ⟨false, false⟩).ignore_run = true
  · rw [if_pos hig]
  · rw [if_neg hig, if_neg (by omega)]
    exact hinv n hn' h16

theorem getD_map_true_permute (l : List PermStressor) (n : Nat) (hn : n < l.length) :
    ((l.map (fun s : PermStressor => { s with ignore_permute := true })).getD n
      (⟨false, false⟩ : PermStressor)).ignore_permute = true := by
  induction l generalizing n with
  | nil => simp at hn
  | cons s rest ih =>
    cases n with
    | zero => rfl
    | succ m =>
      simp only [List.map_cons, List.getD_cons_succ]
      exact ih m (Nat.lt_of_succ_lt_succ hn)

theorem perm_inv_all_true (l : List PermStressor) :
    perm_inv (l.map (fun s => { s with ignore_permute := true })) 0 := by
  intro n hn _
  exact getD_map_true_permute l n (by simpa using hn)

theorem map_run_all_true (l : List PermStressor) :
    (l.map (fun s => { s with ignore_permute := true })).map (fun s => s.ignore_run) =
      l.map (fun s => s.ignore_run) := by
  induction l with
  | nil => rfl
  | cons s rest ih => simp [ih]

theorem stress_participates_set (s : PermStressor) (x : Bool) :
    stress_participates { s with ignore_permute := x } = (!s.ignore_run && !x) := rfl

theorem stress_permute_run_participates (l st : List PermStressor) (i : Nat)
    (hmap : st.map (fun s => s.ignore_run) = l.map (fun s => s.ignore_run))
    (hinv : perm_inv st 0) (n : Nat) (hn : n < l.length) :
    stress_participates ((stress_permute_inner st i 0).getD n ⟨false, false⟩) =
      (!(l.getD n ⟨false, false⟩).ignore_run &&
        (decide (enabled_idx l n < max_perms) && i.testBit (enabled_idx l n))) := by
  have hlen : st.length = l.length := by
    have h := congrArg List.length hmap
    simpa using h
  have hn' : n < st.length := by omega
  have hrun := map_run_getD st l hmap n
  have hidx := enabled_idx_congr st l hmap n
  rw [stress_permute_inner_getD st i 0 n hinv hn']
  by_cases hig : (st.getD n ⟨false, false⟩).ignore_run = true
  · have hlig : (l.getD n ⟨false, false⟩).ignore_run = true := by rw [← hrun]; exact hig
    rw [if_pos hig, stress_participates_set, hig, hlig]
    simp
  · have hsr : (st.getD n ⟨false, false⟩).ignore_run = false := Bool.not_eq_true _ ▸ hig
    have hlig : (l.getD n ⟨false, false⟩).ignore_run = false := by rw [← hrun]; exact hsr
    rw [if_neg hig]
    by_cases hlt : 0 + enabled_idx st n < max_perms
    · have hlt' : enabled_idx l n < max_perms := by omega
      have hsh : (0 : Nat) + enabled_idx st n = enabled_idx l n := by omega
      rw [if_pos hlt, stress_participates_set, hsr, hlig, hsh, decide_land_shift]
      simp [hlt']
    · have hperm : (st.getD n ⟨false, false⟩).ignore_permute = true :=
        hinv n hn' (by omega)
      have hdec : decide (enabled_idx l n < max_perms) = false := by
        have hnl : ¬(enabled_idx l n < max_perms) := by omega
        simpa using hnl
      rw [if_neg hlt]
      unfold stress_participates
      rw [hperm, hdec, hlig]
      simp

theorem stress_permute_runs_length (st : List PermStressor) (is : List Nat) :
    (stress_permute_runs st is).length = is.length := by
  induction is generalizing st with
  | nil => rfl
  | cons i is ih => simp [stress_permute_runs, ih]

theorem stress_permute_runs_participates (l : List PermStressor) (is : List Nat) :
    ∀ st, st.map (fun s => s.ignore_run) = l.map (fun s => s.ignore_run) →
      perm_inv st 0 →
      ∀ r, r < is.length → ∀ n, n < l.length →
      stress_participates
          (((stress_permute_runs st is).getD r []).getD n ⟨false, false⟩) =
        (!(l.getD n ⟨false, false⟩).ignore_run &&
          (decide (enabled_idx l n < max_perms) &&
            (is.getD r 0).testBit (enabled_idx l n))) := by
  induction is with
  | nil =>
    intro st _ _ r hr
    simp at hr
  | cons i is ih =>
    intro st hmap hinv r hr n hn
    cases r with
    | zero =>
      exact stress_permute_run_participates l st i hmap hinv n hn
    | succ r =>
      have hmap' : (stress_permute_inner st i 0).map (fun s => s.ignore_run) =
          l.map (fun s => s.ignore_run) := by
        rw [stress_permute_inner_map_run]
        exact hmap
      exact ih (stress_permute_inner st i 0) hmap'
        (stress_permute_inner_inv st i hinv) r (by simpa using Nat.lt_of_succ_lt_succ hr) n hn

/-- C7: under the permutation regime with k = min(number of not-ignored
stressors, 16), exactly 2^k - 1 parallel runs are driven, and in run number
i = r + 1 (r the zero-based run index) a stressor at position n participates
exactly when it is not ignored, its index j among the not-ignored stressors is
below 16, and bit j of i is set; in particular an enabled stressor beyond the
first 16 participates in no run. -/
theorem c7_permute_runs (l : List PermStressor) :
    (stress_run_permute l).length =
      2 ^ (min (l.countP (fun s => !s.ignore_run)) max_perms) - 1 ∧
    (∀ r, r < (stress_run_permute l).length → ∀ n, n < l.length →
      stress_participates
          (((stress_run_permute l).getD r []).getD n ⟨false, false⟩) =
        (!(l.getD n ⟨false, false⟩).ignore_run &&
          (decide (enabled_idx l n < max_perms) &&
            (r + 1).testBit (enabled_idx l n)))) := by
  have hperms : (if max_perms < l.countP (fun s => !s.ignore_run) then max_perms
      else l.countP (fun s => !s.ignore_run)) =
      min (l.countP (fun s => !s.ignore_run)) max_perms := by
    rw [Nat.min_def]
    by_cases h : l.countP (fun s => !s.ignore_run) ≤ max_perms
    · rw [if_pos h, if_neg (by omega)]
    · rw [if_neg h, if_pos (by omega)]
  constructor
  · unfold stress_run_permute
    rw [stress_permute_runs_length, List.length_range', hperms]
  · intro r hr n hn
    unfold stress_run_permute at hr ⊢
    rw [stress_permute_runs_length, List.length_range'] at hr
    rw [stress_permute_runs_participates l _ _ (map_run_all_true l)
      (perm_inv_all_true l) r (by rw [List.length_range']; exact hr) n hn]
    have hget : (List.range' 1
        (2 ^ (if max_perms < l.countP (fun s => !s.ignore_run) then max_perms
          else l.countP (fun s => !s.ignore_run)) - 1)).getD r 0 = 1 + r := by
      rw [List.getD_eq_getElem _ _ (by rw [List.length_range']; exact hr),
        List.getElem_range'_1]
    rw [hget, Nat.add_comm 1 r]

/-- C7 witness: three stressors with the middle one ignored give k = 2 and
exactly 3 runs; in run i = 3 (index r = 2) the stressor at position 2 (enabled
index 1) participates since bit 1 of 3 is set. -/
theorem c7_permute_runs_witness :
    (stress_run_permute [⟨false, false⟩, ⟨true, false⟩, ⟨false, false⟩]).length =
      2 ^ (min (([⟨false, false⟩, ⟨true, false⟩, ⟨false, false⟩] :
        List PermStressor).countP (fun s => !s.ignore_run)) max_perms) - 1 ∧
    stress_participates
        (((stress_run_permute
          [⟨false, false⟩, ⟨true, false⟩, ⟨false, false⟩]).getD 2 []).getD 2
          ⟨false, false⟩) =
      (!(([⟨false, false⟩, ⟨true, false⟩, ⟨false, false⟩] :
          List PermStressor).getD 2 ⟨false, false⟩).ignore_run &&
        (decide (enabled_idx [⟨false, false⟩, ⟨true, false⟩, ⟨false, false⟩] 2 <
            max_perms) &&
          (2 + 1).testBit
            (enabled_idx [⟨false, false⟩, ⟨true, false⟩, ⟨false, false⟩] 2))) :=
  ⟨(c7_permute_runs [⟨false, false⟩, ⟨true, false⟩, ⟨false, false⟩]).1,
   (c7_permute_runs [⟨false, false⟩, ⟨true, false⟩, ⟨false, false⟩]).2 2
     (by decide) 2 (by decide)⟩
